import Mathlib

/-!
Verification of the cdn-source-loader core: the per-resource retry loop and
the bounded-concurrency queue (src loader file), and the `CdnResource`
run-lifecycle controller (src index file).

The TypeScript code is embedded shallowly:

* `loadResource` is modelled by `loadLoop` / `loadResourceModel` over a
  `FetchEnv` that decides, per attempt index, whether the fetch (including
  any streaming of the body) succeeds end-to-end, and whether the
  cancellation signal is observed at the top of the loop
  (`abortAtStart`) or in the catch block after a failed attempt
  (`abortAtCatch`).  The model counts fetch attempts and the
  onSuccess/onEnd/onError callback invocations and reports the outcome.
* `ConcurrencyQueue` is modelled by `processGo` / `qStep` over a state
  carrying the `running` counter and the pending `queue` exactly as in the
  source, plus two ghost history fields (`admitted`, `added`) that record
  the order in which tasks were admitted to a running slot and the order
  in which they were submitted.
* `CdnResource` is modelled by `mkCdnResource`, `executeLoad`, `start`,
  `stop`, `resume` over a `Controller` record.  Asynchrony is reduced to
  an explicit `RunEnv`: the metadata fetch result, the base-URL
  derivation, the end-to-end outcome of each scheduled task, and the
  order in which the scheduled tasks settle.  Settlements in the real
  program are serialized (single-threaded event loop), so a run is the
  pre-count phase followed by the settlement sequence.  Callback
  invocations are recorded as an `Event` trace; an event models the
  invocation a caller who supplied the corresponding callback would
  observe.
-/

namespace CdnLoader

/-! ## Resource fetch task (loader source file, `loadResource`) -/

/-- Environment of one `loadResource` call: for each attempt index,
whether the fetch succeeds end-to-end (`fetchOk`), and whether the abort
signal is observed set at the top of the retry loop (`abortAtStart`) or
in the catch block after that attempt failed (`abortAtCatch`). -/
structure FetchEnv where
  fetchOk : Nat → Bool
  abortAtStart : Nat → Bool
  abortAtCatch : Nat → Bool

/-- Outcome of a `loadResource` call. -/
inductive LoadOutcome where
  | success
  | failure
  | aborted
deriving DecidableEq

/-- Observable effect of one `loadResource` call: the number of fetch
attempts issued, the number of onSuccess / onEnd / onError callback
invocations, and the outcome (`aborted` models the thrown
"Request aborted" error). -/
structure LoadRun where
  attempts : Nat
  onSuccess : Nat
  onEnd : Nat
  onError : Nat
  outcome : LoadOutcome
deriving DecidableEq

/-- The retry loop of `loadResource`, from attempt index `attempt` with
`remaining` further attempts allowed after the current one
(`remaining = retryCount - attempt` at every call).  Mirrors the source:
check the abort signal, issue the fetch, on success fire onSuccess then
onEnd once each, on failure re-check the abort signal, retry while
`attempt < retryCount`, otherwise fire onError once and fail. -/
def loadLoop (e : FetchEnv) (attempt : Nat) (remaining : Nat) : LoadRun :=
  if e.abortAtStart attempt then
    { attempts := 0, onSuccess := 0, onEnd := 0, onError := 0, outcome := LoadOutcome.aborted }
  else if e.fetchOk attempt then
    { attempts := 1, onSuccess := 1, onEnd := 1, onError := 0, outcome := LoadOutcome.success }
  else if e.abortAtCatch attempt then
    { attempts := 1, onSuccess := 0, onEnd := 0, onError := 0, outcome := LoadOutcome.aborted }
  else
    match remaining with
    | 0 =>
      { attempts := 1, onSuccess := 0, onEnd := 0, onError := 1, outcome := LoadOutcome.failure }
    | r + 1 =>
      let rest := loadLoop e (attempt + 1) r
      { rest with attempts := rest.attempts + 1 }

/-- A full `loadResource` call with the given `retryCount`: the loop runs
from attempt 0 with `retryCount` retries available. -/
def loadResourceModel (e : FetchEnv) (retryCount : Nat) : LoadRun :=
  loadLoop e 0 retryCount

/-! ## Bounded concurrency queue (loader source file, `ConcurrencyQueue`) -/

/-- State of a `ConcurrencyQueue`: the source's `running` counter and
pending `queue` (task identifiers in submission order), plus two ghost
history fields used only for specification: `admitted` is the order in
which tasks were moved into a running slot, `added` the order in which
they were submitted. -/
structure QState where
  running : Nat
  queue : List Nat
  admitted : List Nat
  added : List Nat
deriving DecidableEq

/-- The `processQueue` while-loop: while a slot is free and the queue is
nonempty, shift the front task and start it.  Returns the new running
counter, the remaining queue and the extended admission history. -/
def processGo (maxC : Nat) (running : Nat) (queue : List Nat) (admitted : List Nat) :
    Nat × List Nat × List Nat :=
  match queue with
  | [] => (running, [], admitted)
  | t :: rest =>
    if running < maxC then processGo maxC (running + 1) rest (admitted ++ [t])
    else (running, t :: rest, admitted)

/-- `processQueue` on a full queue state. -/
def processQueue (maxC : Nat) (s : QState) : QState :=
  let r := processGo maxC s.running s.queue s.admitted
  { running := r.1, queue := r.2.1, admitted := r.2.2, added := s.added }

/-- `add`: push the wrapped task onto the queue and run `processQueue`. -/
def qAdd (maxC : Nat) (s : QState) (t : Nat) : QState :=
  processQueue maxC { s with queue := s.queue ++ [t], added := s.added ++ [t] }

/-- A running task settling: its finally-block decrements `running` and
runs `processQueue`. -/
def qFinish (maxC : Nat) (s : QState) : QState :=
  processQueue maxC { s with running := s.running - 1 }

/-- One observable interaction with the queue. -/
inductive QStep where
  | add (t : Nat)
  | finish
deriving DecidableEq

/-- Apply one interaction. -/
def qStep (maxC : Nat) (s : QState) : QStep → QState
  | QStep.add t => qAdd maxC s t
  | QStep.finish => qFinish maxC s

/-- A freshly constructed queue. -/
def qInit : QState :=
  { running := 0, queue := [], admitted := [], added := [] }

/-- The state after a sequence of interactions on a fresh queue. -/
def qRun (maxC : Nat) (steps : List QStep) : QState :=
  steps.foldl (qStep maxC) qInit

/-! ## Data model of the controller (types source file, index source file) -/

/-- One manifest entry (`CdnFileInfo` in the source). -/
structure CdnFileInfo where
  path : String
  size : Nat
  type : String
  integrity : Option String := none
deriving DecidableEq

/-- The resolved manifest (`CdnMetaData` in the source).  The source's
base-location field is a Lean keyword, so it is named `pfx` here. -/
structure CdnMetaData where
  package : String
  version : String
  pfx : String
  files : List CdnFileInfo
deriving DecidableEq

/-- The caller-owned checkpoint (`ResumeConfig` in the source): a JS
object mapping a resource path to a boolean marker, modelled as an
association list in insertion order (`Object.values` enumerates values in
that order). -/
abbrev ResumeConfig := List (String × Bool)

/-- Property lookup on the checkpoint object: `rc[p]`, `none` when the
key is absent. -/
def rcLookup (rc : ResumeConfig) (p : String) : Option Bool :=
  (rc.find? (fun e => e.1 == p)).map (fun e => e.2)

/-- Property write on the checkpoint object: `rc[p] = v` overwrites an
existing key in place and otherwise appends the key. -/
def rcSet (rc : ResumeConfig) (p : String) (v : Bool) : ResumeConfig :=
  if rc.any (fun e => e.1 == p) then
    rc.map (fun e => if e.1 == p then (p, v) else e)
  else rc ++ [(p, v)]

/-- Run-wide progress snapshot (`TaskProgress` in the source). -/
structure TaskProgress where
  completed : Nat
  total : Nat
  percentage : Nat
  success : Nat
  failure : Nat
deriving DecidableEq

/-- Controller state enumeration (`LoadState` in the source). -/
inductive LoadState where
  | idle
  | running
  | stopped
  | completed
deriving DecidableEq

/-- The string value of a `LoadState` enum member. -/
def stateStr : LoadState → String
  | LoadState.idle => "idle"
  | LoadState.running => "running"
  | LoadState.stopped => "stopped"
  | LoadState.completed => "completed"

/-- Payload of the `onState` notification (`CdnStateInfo` in the source). -/
structure CdnStateInfo where
  state : LoadState
  progress : Option TaskProgress
  isRunning : Bool
  completedCount : Nat
  totalCount : Nat
deriving DecidableEq

/-- Observable effects of the controller, in program order: a checkpoint
write, an `onTaskProgress` invocation, an `onState` invocation, an
`onTaskEnd` invocation.  An event records the invocation a caller who
supplied the corresponding optional callback would observe. -/
inductive Event where
  | ckWrite (path : String) (marker : Bool)
  | taskProgress (p : TaskProgress)
  | stateChange (info : CdnStateInfo)
  | taskEnd (rc : ResumeConfig)
deriving DecidableEq

/-- Constructor options (`CdnLoadOptions` in the source).  Only the
fields the core engine reads are modelled; the per-resource callbacks are
represented by the event trace instead. -/
structure CdnLoadOptions where
  metaUrl : Option String := none
  metaData : Option CdnMetaData := none
  baseUrl : Option String := none
  concurrency : Option Nat := none
  retryCount : Option Nat := none
  retryDelay : Option Nat := none
  fileFilter : Option (CdnFileInfo → Bool) := none
  resumeConfig : Option ResumeConfig := none

/-- The mutable state of a `CdnResource` instance.  `resumeConfig` is the
caller's checkpoint object after the constructor has defaulted it to an
empty object. -/
structure Controller where
  metaUrl : Option String
  metaData : Option CdnMetaData
  baseUrl : Option String
  concurrency : Option Nat
  retryCount : Option Nat
  retryDelay : Option Nat
  fileFilter : Option (CdnFileInfo → Bool)
  resumeConfig : ResumeConfig
  state : LoadState
  isRunning : Bool
  currentProgress : Option TaskProgress

/-- JS truthiness of an optional string: `undefined` and the empty string
are falsy. -/
def optStrTruthy : Option String → Bool
  | none => false
  | some s => !(s == "")

/-- The constructor error message. -/
def ctorErrMsg : String :=
  "Either metaUrl or metaData must be provided in CdnLoadOptions"

/-- The `CdnResource` constructor: validates that a manifest URL or a
manifest value is supplied, defaults the checkpoint to an empty object,
derives the initial state from the checkpoint (any value `false` means a
previous run completed files, so the instance starts `stopped`), and
fires the `onState` notification once. -/
def mkCdnResource (o : CdnLoadOptions) : Except String (Controller × List Event) :=
  if !(optStrTruthy o.metaUrl) && o.metaData.isNone then
    Except.error ctorErrMsg
  else
    let rc := o.resumeConfig.getD []
    let st := if rc.any (fun e => e.2 == false) then LoadState.stopped else LoadState.idle
    let completedCount := (rc.filter (fun e => e.2 == false)).length
    let c : Controller :=
      { metaUrl := o.metaUrl, metaData := o.metaData, baseUrl := o.baseUrl,
        concurrency := o.concurrency, retryCount := o.retryCount,
        retryDelay := o.retryDelay, fileFilter := o.fileFilter,
        resumeConfig := rc, state := st, isRunning := false,
        currentProgress := none }
    Except.ok (c, [Event.stateChange
      { state := st, progress := none, isRunning := false,
        completedCount := completedCount, totalCount := 0 }])

/-- The private `updateState` method: set the state, update the stored
progress when one is supplied, and fire `onState` with the stored
progress's counts (or 0). -/
def updateState (c : Controller) (newState : LoadState) (progress : Option TaskProgress) :
    Controller × List Event :=
  let c := { c with state := newState }
  let c :=
    match progress with
    | some p => { c with currentProgress := some p }
    | none => c
  (c, [Event.stateChange
    { state := c.state, progress := c.currentProgress, isRunning := c.isRunning,
      completedCount := (c.currentProgress.map (fun p => p.completed)).getD 0,
      totalCount := (c.currentProgress.map (fun p => p.total)).getD 0 }])

/-- `canStart`: allowed from `idle`, `completed` and `stopped`. -/
def canStart (c : Controller) : Bool :=
  c.state == LoadState.idle || c.state == LoadState.completed ||
    c.state == LoadState.stopped

/-- `canResume`: allowed only from `stopped` and only when the checkpoint
holds at least one value equal to `false` (a file a previous run
completed). -/
def canResume (c : Controller) : Bool :=
  c.state == LoadState.stopped && c.resumeConfig.any (fun e => e.2 == false)

/-- `canStop`: allowed only while `running`. -/
def canStop (c : Controller) : Bool :=
  c.state == LoadState.running

/-! ## The per-run algorithm (`executeLoad`) -/

/-- End-to-end outcome of one scheduled task, abstracting the awaited
`loadResource` call (whose internals are `loadResourceModel`):
`aborted` models the task throwing "Request aborted" (either at the
pre-check in the queued closure or inside `loadResource`), `done s`
models a settled `CdnSourceResult` with `success = s`. -/
inductive TaskOutcome where
  | aborted
  | done (success : Bool)
deriving DecidableEq

/-- Environment of one `executeLoad` run, resolving the asynchronous
collaborators: the metadata fetch, the base-URL derivation
(`extractBaseUrl`, plain string manipulation outside the claims), the
end-to-end outcome of each scheduled task keyed by resource path, and the
order in which the scheduled tasks settle (the network decides it; the
event loop serializes the settlements). -/
structure RunEnv where
  metaFetch : String → Except String CdnMetaData
  extractBase : String → String
  outcome : String → TaskOutcome
  settleOrder : List CdnFileInfo → List CdnFileInfo

/-- The metadata error message thrown inside `executeLoad`. -/
def metaErrMsg : String := "Either metaUrl or metaData must be provided"

/-- The base-URL error message thrown inside `executeLoad`. -/
def baseErrMsg : String :=
  "baseUrl must be provided when metaData is used without metaUrl"

/-- Metadata resolution step of `executeLoad`: a supplied manifest value
is used directly, otherwise a truthy manifest URL is fetched, otherwise
the run throws. -/
def resolveMeta (c : Controller) (env : RunEnv) : Except String CdnMetaData :=
  match c.metaData with
  | some md => Except.ok md
  | none =>
    match c.metaUrl with
    | some u => if u == "" then Except.error metaErrMsg else env.metaFetch u
    | none => Except.error metaErrMsg

/-- Base-URL resolution step of `executeLoad`: explicit override, then
derivation from the manifest URL, then the manifest-embedded base
location, otherwise the run throws. -/
def resolveBase (c : Controller) (env : RunEnv) (md : CdnMetaData) : Except String String :=
  if optStrTruthy c.baseUrl then Except.ok (c.baseUrl.getD "")
  else if optStrTruthy c.metaUrl then Except.ok (env.extractBase (c.metaUrl.getD ""))
  else if !(md.pfx == "") then Except.ok md.pfx
  else Except.error baseErrMsg

/-- The filtered working set: the manifest's file list restricted by the
optional inclusion predicate. -/
def workingSet (c : Controller) (md : CdnMetaData) : List CdnFileInfo :=
  match c.fileFilter with
  | some flt => md.files.filter flt
  | none => md.files

/-- The checkpoint partition loop of `executeLoad`: a file whose
checkpoint value is exactly `false` is skipped and pre-counted
(`completedCount++; successCount++`); a file whose entry is absent or
`true` joins the schedulable backlog, in manifest order.  Returns the
backlog and the pre-count. -/
def partitionFiles (rc : ResumeConfig) : List CdnFileInfo → List CdnFileInfo × Nat
  | [] => ([], 0)
  | f :: rest =>
    let r := partitionFiles rc rest
    match rcLookup rc f.path with
    | some false => (r.1, r.2 + 1)
    | _ => (f :: r.1, r.2)

/-- `Math.round (num / den)` on an exact nonnegative rational: round half
up. -/
def jsRound (num den : Nat) : Nat :=
  (2 * num + den) / (2 * den)

/-- A `TaskProgress` value as built by `executeLoad`:
`percentage = Math.round (completed / total * 100)` when `total > 0`,
otherwise `0`. -/
def mkProgress (completed total succ fail : Nat) : TaskProgress :=
  { completed := completed, total := total,
    percentage := if 0 < total then jsRound (100 * completed) total else 0,
    success := succ, failure := fail }

/-- The run-wide counters closed over by `executeLoad`. -/
structure Agg where
  completed : Nat
  success : Nat
  failure : Nat
deriving DecidableEq

/-- Settlement of one scheduled task (the closure passed to
`queue.add`): an aborted task changes nothing and emits nothing (its
thrown error skips the checkpoint write and `updateTaskProgress`); a
settled task first writes the outcome into the checkpoint
(`success → false`, `failure → true`) and then runs
`updateTaskProgress`, which increments the counters, stores and emits the
new snapshot, and fires `onState`. -/
def settleTask (c : Controller) (agg : Agg) (total : Nat) (f : CdnFileInfo)
    (oc : TaskOutcome) : Controller × Agg × List Event :=
  match oc with
  | TaskOutcome.aborted => (c, agg, [])
  | TaskOutcome.done s =>
    let c := { c with resumeConfig := rcSet c.resumeConfig f.path (!s) }
    let agg : Agg :=
      { completed := agg.completed + 1,
        success := if s then agg.success + 1 else agg.success,
        failure := if s then agg.failure else agg.failure + 1 }
    let p := mkProgress agg.completed total agg.success agg.failure
    let c := { c with currentProgress := some p }
    let u := updateState c c.state (some p)
    (u.1, agg, Event.ckWrite f.path (!s) :: Event.taskProgress p :: u.2)

/-- The serialized settlement sequence of a run: the scheduled tasks in
the order the environment settles them. -/
def runSettlements (total : Nat) (oc : String → TaskOutcome) :
    Controller → Agg → List CdnFileInfo → Controller × Agg × List Event
  | c, agg, [] => (c, agg, [])
  | c, agg, f :: rest =>
    let r := settleTask c agg total f (oc f.path)
    let r2 := runSettlements total oc r.1 r.2.1 rest
    (r2.1, r2.2.1, r.2.2 ++ r2.2.2)

/-- The result of an `executeLoad` / `start` / `resume` call: the updated
instance, the event trace, and the error the call threw, if any. -/
structure RunResult where
  ctrl : Controller
  events : List Event
  err : Option String

/-- The body of `executeLoad` after the metadata and base URL resolve:
filter, partition by the checkpoint, emit the pre-count snapshot when
files were skipped, finish immediately on an empty backlog, otherwise
run the settlement sequence and transition to `stopped` (some task was
aborted, which in the source means the signal was raised) or `completed`,
firing `onTaskEnd` with the checkpoint either way. -/
def loadPhase (c : Controller) (env : RunEnv) (md : CdnMetaData) : RunResult :=
  let filesToLoad := workingSet c md
  let part := partitionFiles c.resumeConfig filesToLoad
  let backlog := part.1
  let cc := part.2
  let totalFiles := filesToLoad.length
  let pre :=
    if 0 < cc then
      let p := mkProgress cc totalFiles cc 0
      let c1 := { c with currentProgress := some p }
      let u1 := updateState c1 c1.state (some p)
      (u1.1, Event.taskProgress p :: u1.2)
    else (c, ([] : List Event))
  let c := pre.1
  let evPre := pre.2
  if backlog.length == 0 then
    let c := { c with isRunning := false }
    let u2 := updateState c LoadState.completed none
    { ctrl := u2.1, events := evPre ++ u2.2 ++ [Event.taskEnd u2.1.resumeConfig],
      err := none }
  else
    let order := env.settleOrder backlog
    let agg : Agg := { completed := cc, success := cc, failure := 0 }
    let r := runSettlements totalFiles env.outcome c agg order
    let c := r.1
    let evS := r.2.2
    let anyAborted := order.any (fun f => env.outcome f.path == TaskOutcome.aborted)
    let c := { c with isRunning := false }
    let u3 := updateState c
      (if anyAborted then LoadState.stopped else LoadState.completed) none
    { ctrl := u3.1, events := evPre ++ evS ++ u3.2 ++ [Event.taskEnd u3.1.resumeConfig],
      err := none }

/-- The private `executeLoad` method: a no-op while a run is already in
flight; otherwise mark the run in flight, transition to `running`,
resolve the metadata and base URL (a failure there is rethrown after the
finally-block clears `isRunning`, leaving the state mutated to
`running` as in the source), then run `loadPhase`. -/
def executeLoad (c0 : Controller) (env : RunEnv) : RunResult :=
  if c0.isRunning then { ctrl := c0, events := [], err := none }
  else
    let u := updateState { c0 with isRunning := true } LoadState.running none
    match resolveMeta u.1 env with
    | Except.error e =>
      { ctrl := { u.1 with isRunning := false }, events := u.2, err := some e }
    | Except.ok md =>
      match resolveBase u.1 env md with
      | Except.error e =>
        { ctrl := { u.1 with isRunning := false }, events := u.2, err := some e }
      | Except.ok _ =>
        let r := loadPhase u.1 env md
        { ctrl := r.ctrl, events := u.2 ++ r.events, err := r.err }

/-- The invalid-state error message `start` throws. -/
def startErr (s : LoadState) : String :=
  "Cannot start: current state is " ++ stateStr s ++
    ". Use resume() if you want to continue."

/-- The invalid-state error message `resume` throws. -/
def resumeErr (s : LoadState) : String :=
  "Cannot resume: current state is " ++ stateStr s ++
    ". Use start() if you want to start a new task."

/-- `start()`: rejected synchronously (no mutation) unless `canStart`;
from `completed` or `stopped` the state is first reset to `idle`, the
checkpoint deliberately left intact; then the run executes. -/
def start (c : Controller) (env : RunEnv) : RunResult :=
  if !(canStart c) then { ctrl := c, events := [], err := some (startErr c.state) }
  else
    let c :=
      if c.state == LoadState.completed || c.state == LoadState.stopped then
        { c with state := LoadState.idle }
      else c
    executeLoad c env

/-- `stop()`: a no-op unless `running`; otherwise set the state to
`stopped` and raise the run's abort signal (the signal's effects reach
the model through `RunEnv.outcome`). -/
def stop (c : Controller) : Controller :=
  if !(c.state == LoadState.running) then c
  else { c with state := LoadState.stopped }

/-- `resume()`: rejected synchronously (no mutation) unless `canResume`;
otherwise the run executes against the existing checkpoint. -/
def resume (c : Controller) (env : RunEnv) : RunResult :=
  if !(canResume c) then { ctrl := c, events := [], err := some (resumeErr c.state) }
  else executeLoad c env

/-! ## Concrete fixtures used to evaluate the model -/

/-- A fetch environment where every attempt fails and the abort signal is
never raised. -/
def allFailEnv : FetchEnv :=
  { fetchOk := fun _ => false, abortAtStart := fun _ => false,
    abortAtCatch := fun _ => false }

/-- A fetch environment where the abort signal is already set at the top
of the loop. -/
def abortEnv : FetchEnv :=
  { fetchOk := fun _ => false, abortAtStart := fun _ => true,
    abortAtCatch := fun _ => false }

/-- A fetch environment where every attempt fails and the abort signal is
observed in the catch block. -/
def catchAbortEnv : FetchEnv :=
  { fetchOk := fun _ => false, abortAtStart := fun _ => false,
    abortAtCatch := fun _ => true }

/-- A sample manifest entry. -/
def fileA : CdnFileInfo := { path := "a", size := 1, type := "text" }

/-- A second sample manifest entry. -/
def fileB : CdnFileInfo := { path := "b", size := 2, type := "text" }

/-- A manifest with no files. -/
def mdEmpty : CdnMetaData :=
  { package := "pkg", version := "1.0.0", pfx := "https://cdn.example/pkg",
    files := [] }

/-- A manifest with two files. -/
def mdTwo : CdnMetaData :=
  { package := "pkg", version := "1.0.0", pfx := "https://cdn.example/pkg",
    files := [fileA, fileB] }

/-- A run environment where every scheduled task succeeds and tasks
settle in submission order. -/
def envTrivial : RunEnv :=
  { metaFetch := fun _ => Except.error "offline",
    extractBase := fun s => s,
    outcome := fun _ => TaskOutcome.done true,
    settleOrder := fun l => l }

/-- A quiescent controller over the given manifest, checkpoint and
state. -/
def ctrlOf (md : CdnMetaData) (rc : ResumeConfig) (st : LoadState) : Controller :=
  { metaUrl := none, metaData := some md,
    baseUrl := some "https://cdn.example/pkg", concurrency := none,
    retryCount := none, retryDelay := none, fileFilter := none,
    resumeConfig := rc, state := st, isRunning := false,
    currentProgress := none }

/-- A stopped controller whose checkpoint holds one pending entry and no
done entry. -/
def ctrlPendingOnly : Controller := ctrlOf mdEmpty [("a", true)] LoadState.stopped

/-- A stopped controller whose checkpoint holds one done entry and no
pending entry. -/
def ctrlDoneEntry : Controller := ctrlOf mdEmpty [("a", false)] LoadState.stopped

/-- An idle controller over a two-file manifest whose checkpoint marks
the first file done. -/
def ctrlRich : Controller := ctrlOf mdTwo [("a", false)] LoadState.idle

/-- A controller in the middle of a run. -/
def ctrlRunning : Controller := ctrlOf mdEmpty [] LoadState.running

/-- Options carrying a manifest value and a checkpoint with one done
entry. -/
def oStopped : CdnLoadOptions :=
  { metaData := some mdEmpty, resumeConfig := some [("a", false)] }

/-- The controller `mkCdnResource oStopped` builds. -/
def ctorC : Controller :=
  { metaUrl := none, metaData := some mdEmpty, baseUrl := none,
    concurrency := none, retryCount := none, retryDelay := none,
    fileFilter := none, resumeConfig := [("a", false)],
    state := LoadState.stopped, isRunning := false, currentProgress := none }

/-- The event trace `mkCdnResource oStopped` fires. -/
def ctorEvs : List Event :=
  [Event.stateChange
    { state := LoadState.stopped, progress := none, isRunning := false,
      completedCount := 1, totalCount := 0 }]

/-! # Theorems -/

/-! ## Lemmas on the concurrency queue -/

/-- `processGo` never pushes the running counter beyond the bound. -/
theorem processGo_bound (maxC : Nat) :
    ∀ (queue : List Nat) (running : Nat) (admitted : List Nat), running ≤ maxC →
      (processGo maxC running queue admitted).1 ≤ maxC := by
  intro queue
  induction queue with
  | nil => intro r adm h; simpa [processGo] using h
  | cons t rest ih =>
    intro r adm h
    by_cases hr : r < maxC
    · simpa [processGo, hr] using ih (r + 1) (adm ++ [t]) hr
    · simpa [processGo, hr] using h

/-- `processGo` moves tasks from the front of the queue to the back of
the admission history: their concatenation is invariant. -/
theorem processGo_fifo (maxC : Nat) :
    ∀ (queue : List Nat) (running : Nat) (admitted : List Nat),
      (processGo maxC running queue admitted).2.2 ++
        (processGo maxC running queue admitted).2.1 = admitted ++ queue := by
  intro queue
  induction queue with
  | nil => intro r adm; simp [processGo]
  | cons t rest ih =>
    intro r adm
    by_cases hr : r < maxC
    · simpa [processGo, hr, List.append_assoc] using ih (r + 1) (adm ++ [t])
    · simp [processGo, hr]

/-- After `processGo`, a free running slot means the queue drained. -/
theorem processGo_drain (maxC : Nat) :
    ∀ (queue : List Nat) (running : Nat) (admitted : List Nat),
      (processGo maxC running queue admitted).1 < maxC →
        (processGo maxC running queue admitted).2.1 = [] := by
  intro queue
  induction queue with
  | nil => intro r adm _; simp [processGo]
  | cons t rest ih =>
    intro r adm
    by_cases hr : r < maxC
    · intro h
      simpa [processGo, hr] using ih (r + 1) (adm ++ [t]) (by simpa [processGo, hr] using h)
    · intro h
      exact absurd (by simpa [processGo, hr] using h) hr

/-- One queue interaction preserves the bound and FIFO invariants and
re-establishes the drain property. -/
theorem qInv_step (maxC : Nat) (s : QState) (st : QStep)
    (hb : s.running ≤ maxC) (hf : s.admitted ++ s.queue = s.added) :
    (qStep maxC s st).running ≤ maxC ∧
    (qStep maxC s st).admitted ++ (qStep maxC s st).queue = (qStep maxC s st).added ∧
    ((qStep maxC s st).running < maxC → (qStep maxC s st).queue = []) := by
  cases st with
  | add t =>
    refine ⟨?_, ?_, ?_⟩
    · simpa [qStep, qAdd, processQueue] using
        processGo_bound maxC (s.queue ++ [t]) s.running s.admitted hb
    · have h := processGo_fifo maxC (s.queue ++ [t]) s.running s.admitted
      simp only [qStep, qAdd, processQueue]
      rw [h, ← List.append_assoc, hf]
    · simpa [qStep, qAdd, processQueue] using
        processGo_drain maxC (s.queue ++ [t]) s.running s.admitted
  | finish =>
    refine ⟨?_, ?_, ?_⟩
    · simpa [qStep, qFinish, processQueue] using
        processGo_bound maxC s.queue (s.running - 1) s.admitted
          (Nat.le_trans (Nat.sub_le _ _) hb)
    · have h := processGo_fifo maxC s.queue (s.running - 1) s.admitted
      simp only [qStep, qFinish, processQueue]
      rw [h, hf]
    · simpa [qStep, qFinish, processQueue] using
        processGo_drain maxC s.queue (s.running - 1) s.admitted

/-- C6: for every configured concurrency bound N ≥ 1 and every sequence
of add/settle interactions with the `ConcurrencyQueue`, the running
counter never exceeds N, the admission history followed by the still
queued tasks is exactly the submission history (queued tasks are admitted
in FIFO submission order), and whenever a running slot is free nothing is
left queued. -/
theorem concurrency_fifo_bound (maxC : Nat) (steps : List QStep) (h : 1 ≤ maxC) :
    (qRun maxC steps).running ≤ maxC ∧
    (qRun maxC steps).admitted ++ (qRun maxC steps).queue = (qRun maxC steps).added ∧
    ((qRun maxC steps).running < maxC → (qRun maxC steps).queue = []) := by
  clear h
  have key : ∀ (l : List QStep) (s : QState),
      s.running ≤ maxC → s.admitted ++ s.queue = s.added →
      (s.running < maxC → s.queue = []) →
      ((l.foldl (qStep maxC) s).running ≤ maxC ∧
       (l.foldl (qStep maxC) s).admitted ++ (l.foldl (qStep maxC) s).queue =
         (l.foldl (qStep maxC) s).added ∧
       ((l.foldl (qStep maxC) s).running < maxC →
         (l.foldl (qStep maxC) s).queue = [])) := by
    intro l
    induction l with
    | nil => intro s h1 h2 h3; exact ⟨h1, h2, h3⟩
    | cons st rest ih =>
      intro s h1 h2 h3
      obtain ⟨g1, g2, g3⟩ := qInv_step maxC s st h1 h2
      simpa [List.foldl_cons] using ih (qStep maxC s st) g1 g2 g3
  simpa [qRun] using
    key steps qInit (by simp [qInit]) (by simp [qInit]) (by simp [qInit])

/-- Witness for C6: a bound of 2 with three submissions and one
settlement. -/
theorem concurrency_fifo_bound_witness :
    1 ≤ 2 ∧
    ((qRun 2 [QStep.add 7, QStep.add 8, QStep.add 9, QStep.finish]).running ≤ 2 ∧
     (qRun 2 [QStep.add 7, QStep.add 8, QStep.add 9, QStep.finish]).admitted ++
       (qRun 2 [QStep.add 7, QStep.add 8, QStep.add 9, QStep.finish]).queue =
       (qRun 2 [QStep.add 7, QStep.add 8, QStep.add 9, QStep.finish]).added ∧
     ((qRun 2 [QStep.add 7, QStep.add 8, QStep.add 9, QStep.finish]).running < 2 →
       (qRun 2 [QStep.add 7, QStep.add 8, QStep.add 9, QStep.finish]).queue = [])) :=
  ⟨by decide,
   concurrency_fifo_bound 2 [QStep.add 7, QStep.add 8, QStep.add 9, QStep.finish]
     (by decide)⟩

/-! ## Lemmas and theorems on the retry loop -/

/-- C1: a resource whose every fetch attempt fails, with the abort signal
never observed, is attempted exactly retryCount+1 times, fires the error
notification exactly once, fires neither the success nor the completion
notification, and returns a failure result. -/
theorem retry_bound (e : FetchEnv) (retryCount : Nat)
    (hf : ∀ i, e.fetchOk i = false)
    (h1 : ∀ i, e.abortAtStart i = false)
    (h2 : ∀ i, e.abortAtCatch i = false) :
    loadResourceModel e retryCount =
      { attempts := retryCount + 1, onSuccess := 0, onEnd := 0, onError := 1,
        outcome := LoadOutcome.failure } := by
  have key : ∀ (remaining attempt : Nat),
      loadLoop e attempt remaining =
        { attempts := remaining + 1, onSuccess := 0, onEnd := 0, onError := 1,
          outcome := LoadOutcome.failure } := by
    intro remaining
    induction remaining with
    | zero => intro a; rw [loadLoop.eq_def]; simp [hf a, h1 a, h2 a]
    | succ r ih =>
      intro a; rw [loadLoop.eq_def]; simp [hf a, h1 a, h2 a, ih (a + 1)]
  simpa [loadResourceModel] using key retryCount 0

/-- Witness for C1: with retryCount 3 every attempt failing gives 4
attempts and one error notification. -/
theorem retry_bound_witness :
    loadResourceModel allFailEnv 3 =
      { attempts := 4, onSuccess := 0, onEnd := 0, onError := 1,
        outcome := LoadOutcome.failure } :=
  retry_bound allFailEnv 3 (fun _ => rfl) (fun _ => rfl) (fun _ => rfl)

/-- C8: a task that observes the abort signal ends in the aborted
condition, distinct from failure: observed at the top of the loop it
issues no further attempt; observed in the catch block after a failed
attempt it retries no further; in both cases no success, completion or
error notification fires; and the controller treats the aborted
settlement as invisible: checkpoint, counters and event trace are exactly
as before the attempt. -/
theorem aborted_task_isolated :
    (∀ (e : FetchEnv) (attempt remaining : Nat), e.abortAtStart attempt = true →
      loadLoop e attempt remaining =
        { attempts := 0, onSuccess := 0, onEnd := 0, onError := 0,
          outcome := LoadOutcome.aborted }) ∧
    (∀ (e : FetchEnv) (attempt remaining : Nat),
      e.abortAtStart attempt = false → e.fetchOk attempt = false →
      e.abortAtCatch attempt = true →
      loadLoop e attempt remaining =
        { attempts := 1, onSuccess := 0, onEnd := 0, onError := 0,
          outcome := LoadOutcome.aborted }) ∧
    (∀ (c : Controller) (agg : Agg) (total : Nat) (f : CdnFileInfo),
      settleTask c agg total f TaskOutcome.aborted = (c, agg, [])) := by
  refine ⟨?_, ?_, ?_⟩
  · intro e a r h; rw [loadLoop.eq_def]; simp [h]
  · intro e a r h1 h2 h3; rw [loadLoop.eq_def]; simp [h1, h2, h3]
  · intro c agg total f; rfl

/-- Witness for C8: the three abort situations at concrete inputs. -/
theorem aborted_task_isolated_witness :
    loadLoop abortEnv 0 3 =
      { attempts := 0, onSuccess := 0, onEnd := 0, onError := 0,
        outcome := LoadOutcome.aborted } ∧
    loadLoop catchAbortEnv 2 5 =
      { attempts := 1, onSuccess := 0, onEnd := 0, onError := 0,
        outcome := LoadOutcome.aborted } ∧
    settleTask ctrlRich { completed := 0, success := 0, failure := 0 } 2 fileA
      TaskOutcome.aborted =
      (ctrlRich, { completed := 0, success := 0, failure := 0 }, []) :=
  ⟨aborted_task_isolated.1 abortEnv 0 3 rfl,
   aborted_task_isolated.2.1 catchAbortEnv 2 5 rfl rfl rfl,
   aborted_task_isolated.2.2 ctrlRich { completed := 0, success := 0, failure := 0 }
     2 fileA⟩

/-! ## Lemmas and theorems on the checkpoint partition -/

/-- The backlog computed by the partition loop is the filtered working
set minus exactly the files whose checkpoint value is `false`. -/
theorem partitionFiles_fst (rc : ResumeConfig) :
    ∀ files : List CdnFileInfo,
      (partitionFiles rc files).1 =
        files.filter (fun f => !(rcLookup rc f.path == some false)) := by
  intro files
  induction files with
  | nil => rfl
  | cons f rest ih =>
    cases h : rcLookup rc f.path with
    | none => simp [partitionFiles, h, ih, List.filter_cons]
    | some b => cases b <;> simp [partitionFiles, h, ih, List.filter_cons]

/-- The pre-count computed by the partition loop is the number of files
whose checkpoint value is `false`. -/
theorem partitionFiles_snd (rc : ResumeConfig) :
    ∀ files : List CdnFileInfo,
      (partitionFiles rc files).2 =
        (files.filter (fun f => rcLookup rc f.path == some false)).length := by
  intro files
  induction files with
  | nil => rfl
  | cons f rest ih =>
    cases h : rcLookup rc f.path with
    | none => simp [partitionFiles, h, ih, List.filter_cons]
    | some b => cases b <;> simp [partitionFiles, h, ih, List.filter_cons]

/-- Pre-count plus backlog size is the size of the filtered working
set. -/
theorem partitionFiles_len (rc : ResumeConfig) :
    ∀ files : List CdnFileInfo,
      (partitionFiles rc files).2 + (partitionFiles rc files).1.length =
        files.length := by
  intro files
  induction files with
  | nil => rfl
  | cons f rest ih =>
    cases h : rcLookup rc f.path with
    | none => simp [partitionFiles, h]; omega
    | some b =>
      cases b
      · simp [partitionFiles, h]; omega
      · simp [partitionFiles, h]; omega

/-- C2 counterexample: a descriptor whose path is absent from the
checkpoint is not skipped: it joins the backlog and is not pre-counted,
unlike the same descriptor with a `false` entry. -/
theorem absent_entry_fetched_cex :
    rcLookup [] fileA.path = none ∧
    partitionFiles [] [fileA] = ([fileA], 0) ∧
    partitionFiles [("a", false)] [fileA] = ([], 1) := by
  refine ⟨rfl, ?_, ?_⟩ <;> decide

/-- C2 (amended): a descriptor whose checkpoint entry is absent is
treated as pending, exactly like an entry equal to `true`: it joins the
schedulable backlog and is fetched; only a descriptor whose entry is
exactly `false` is skipped and pre-counted as completed. -/
theorem partition_pending_spec (rc : ResumeConfig) (files : List CdnFileInfo) :
    (partitionFiles rc files).1 =
      files.filter (fun f => !(rcLookup rc f.path == some false)) ∧
    (partitionFiles rc files).2 =
      (files.filter (fun f => rcLookup rc f.path == some false)).length :=
  ⟨partitionFiles_fst rc files, partitionFiles_snd rc files⟩

/-! ## Lemmas and theorems on the settlement sequence -/

/-- Settlement sequences compose: settling `l1 ++ l2` is settling `l1`
and then settling `l2` from the resulting state, with the event traces
concatenated. -/
theorem runSettlements_append (total : Nat) (oc : String → TaskOutcome) :
    ∀ (l1 l2 : List CdnFileInfo) (c : Controller) (agg : Agg),
      runSettlements total oc c agg (l1 ++ l2) =
        ((runSettlements total oc
            (runSettlements total oc c agg l1).1
            (runSettlements total oc c agg l1).2.1 l2).1,
         (runSettlements total oc
            (runSettlements total oc c agg l1).1
            (runSettlements total oc c agg l1).2.1 l2).2.1,
         (runSettlements total oc c agg l1).2.2 ++
           (runSettlements total oc
              (runSettlements total oc c agg l1).1
              (runSettlements total oc c agg l1).2.1 l2).2.2) := by
  intro l1
  induction l1 with
  | nil => intro l2 c agg; simp [runSettlements]
  | cons f rest ih =>
    intro l2 c agg
    simp only [List.cons_append, runSettlements, List.append_eq, ih,
      List.append_assoc]

/-- C4: at every non-aborted settlement in a run's settlement sequence,
the checkpoint write event for that descriptor's path — marker `false` on
success, `true` on failure — is emitted strictly before the progress
snapshot, the snapshot carries the counters already incremented past
the pre-settlement values, and the controller's checkpoint after the
settlement step is the pre-settlement checkpoint with exactly that entry
written. -/
theorem checkpoint_write_precedes_progress (total : Nat) (oc : String → TaskOutcome)
    (c : Controller) (agg : Agg) (pre post : List CdnFileInfo) (f : CdnFileInfo)
    (s : Bool) (h : oc f.path = TaskOutcome.done s) :
    ∃ rest,
      (runSettlements total oc c agg (pre ++ f :: post)).2.2 =
        (runSettlements total oc c agg pre).2.2 ++
          Event.ckWrite f.path (!s) ::
          Event.taskProgress (mkProgress
            ((runSettlements total oc c agg pre).2.1.completed + 1) total
            (if s then (runSettlements total oc c agg pre).2.1.success + 1
             else (runSettlements total oc c agg pre).2.1.success)
            (if s then (runSettlements total oc c agg pre).2.1.failure
             else (runSettlements total oc c agg pre).2.1.failure + 1)) :: rest ∧
      (settleTask (runSettlements total oc c agg pre).1
          (runSettlements total oc c agg pre).2.1 total f (oc f.path)).1.resumeConfig =
        rcSet (runSettlements total oc c agg pre).1.resumeConfig f.path (!s) := by
  rw [runSettlements_append total oc pre (f :: post) c agg]
  simp only [runSettlements, h, settleTask, updateState]
  exact ⟨_, rfl, trivial⟩

/-- Witness for C4: a single successful settlement over a two-file run
with one file pre-counted done. -/
theorem checkpoint_write_precedes_progress_witness :
    ∃ rest,
      (runSettlements 2 envTrivial.outcome ctrlRich
          { completed := 1, success := 1, failure := 0 } [fileB]).2.2 =
        Event.ckWrite fileB.path false ::
          Event.taskProgress (mkProgress 2 2 2 0) :: rest ∧
      (settleTask ctrlRich { completed := 1, success := 1, failure := 0 } 2 fileB
          (envTrivial.outcome fileB.path)).1.resumeConfig =
        rcSet ctrlRich.resumeConfig fileB.path false :=
  checkpoint_write_precedes_progress 2 envTrivial.outcome ctrlRich
    { completed := 1, success := 1, failure := 0 } [] [] fileB true rfl

/-- `updateState` fires only a state notification, never a progress
snapshot. -/
theorem updateState_no_taskProgress (c : Controller) (st : LoadState)
    (pr : Option TaskProgress) :
    ∀ p, Event.taskProgress p ∉ (updateState c st pr).2 := by
  intro p hp
  simp [updateState] at hp

/-- Progress snapshots emitted along a settlement sequence satisfy the
run invariants, provided the incoming counters do: the snapshot's total
is the run total, completed never exceeds it, success and failure sum to
completed, and the percentage follows the rounding formula. -/
theorem runSettlements_inv (total : Nat) (oc : String → TaskOutcome) :
    ∀ (order : List CdnFileInfo) (c : Controller) (agg : Agg),
      agg.success + agg.failure = agg.completed →
      agg.completed + order.length ≤ total →
      ∀ p, Event.taskProgress p ∈ (runSettlements total oc c agg order).2.2 →
        p.total = total ∧ p.completed ≤ total ∧
        p.success + p.failure = p.completed ∧
        p.percentage = (if 0 < total then jsRound (100 * p.completed) total else 0) := by
  intro order
  induction order with
  | nil => intro c agg h1 h2 p hp; simp [runSettlements] at hp
  | cons f rest ih =>
    intro c agg h1 h2 p hp
    simp only [runSettlements] at hp
    cases hoc : oc f.path with
    | aborted =>
      rw [hoc] at hp
      simp only [settleTask, List.nil_append] at hp
      exact ih c agg h1 (by simp at h2; omega) p hp
    | done s =>
      rw [hoc] at hp
      simp only [settleTask] at hp
      simp [updateState] at hp
      simp only [List.length_cons] at h2
      rcases hp with hp | hp
      · subst hp
        refine ⟨rfl, ?_, ?_, rfl⟩
        · show agg.completed + 1 ≤ total
          omega
        · show (if s = true then agg.success + 1 else agg.success) +
            (if s = true then agg.failure else agg.failure + 1) = agg.completed + 1
          cases s <;> simp <;> omega
      · refine ih _ _ ?_ ?_ p hp
        · show (if s = true then agg.success + 1 else agg.success) +
            (if s = true then agg.failure else agg.failure + 1) = agg.completed + 1
          cases s <;> simp <;> omega
        · show agg.completed + 1 + rest.length ≤ total
          omega

/-- Progress snapshots emitted by the load phase (including the pre-count
snapshot) satisfy the run invariants: the fixed total is the filtered
working-set size, completed never exceeds it, success and failure sum to
completed, and the percentage follows the rounding formula. -/
theorem loadPhase_progress_inv (c : Controller) (env : RunEnv) (md : CdnMetaData)
    (hord : ∀ l : List CdnFileInfo, (env.settleOrder l).length = l.length) :
    ∀ p, Event.taskProgress p ∈ (loadPhase c env md).events →
      p.total = (workingSet c md).length ∧ p.completed ≤ p.total ∧
      p.success + p.failure = p.completed ∧
      p.percentage =
        (if 0 < p.total then jsRound (100 * p.completed) p.total else 0) := by
  intro p hp
  have hlen := partitionFiles_len c.resumeConfig (workingSet c md)
  have hpre : ∀ hp0 : p = mkProgress (partitionFiles c.resumeConfig (workingSet c md)).2
      (workingSet c md).length (partitionFiles c.resumeConfig (workingSet c md)).2 0,
      p.total = (workingSet c md).length ∧ p.completed ≤ p.total ∧
      p.success + p.failure = p.completed ∧
      p.percentage =
        (if 0 < p.total then jsRound (100 * p.completed) p.total else 0) := by
    intro hp0
    subst hp0
    refine ⟨rfl, ?_, ?_, rfl⟩
    · show (partitionFiles c.resumeConfig (workingSet c md)).2 ≤
        (workingSet c md).length
      omega
    · show (partitionFiles c.resumeConfig (workingSet c md)).2 + 0 =
        (partitionFiles c.resumeConfig (workingSet c md)).2
      omega
  have hsettle : ∀ c' : Controller,
      Event.taskProgress p ∈
        (runSettlements (workingSet c md).length env.outcome c'
          { completed := (partitionFiles c.resumeConfig (workingSet c md)).2,
            success := (partitionFiles c.resumeConfig (workingSet c md)).2,
            failure := 0 }
          (env.settleOrder (partitionFiles c.resumeConfig (workingSet c md)).1)).2.2 →
      p.total = (workingSet c md).length ∧ p.completed ≤ p.total ∧
      p.success + p.failure = p.completed ∧
      p.percentage =
        (if 0 < p.total then jsRound (100 * p.completed) p.total else 0) := by
    intro c' hps
    have h := runSettlements_inv (workingSet c md).length env.outcome
      (env.settleOrder (partitionFiles c.resumeConfig (workingSet c md)).1) c'
      { completed := (partitionFiles c.resumeConfig (workingSet c md)).2,
        success := (partitionFiles c.resumeConfig (workingSet c md)).2,
        failure := 0 } rfl
      (by
        rw [hord]
        show (partitionFiles c.resumeConfig (workingSet c md)).2 +
          (partitionFiles c.resumeConfig (workingSet c md)).1.length ≤
          (workingSet c md).length
        omega) p hps
    obtain ⟨ht, hle, hsum, hperc⟩ := h
    exact ⟨ht, by rw [ht]; exact hle, hsum, by rw [ht]; exact hperc⟩
  simp only [loadPhase] at hp
  by_cases hcc : 0 < (partitionFiles c.resumeConfig (workingSet c md)).2 <;>
    by_cases hbl :
      (((partitionFiles c.resumeConfig (workingSet c md)).1.length == 0) = true) <;>
    simp [hcc, hbl, updateState] at hp
  · exact hpre hp
  · rcases hp with hp | hp
    · exact hpre hp
    · exact hsettle _ hp
  · exact hsettle _ hp

/-- C5: in a quiescent run whose manifest resolves, every emitted
TaskProgress snapshot — the pre-count snapshot for checkpoint-skipped
files included — carries the filtered working-set size as its fixed
total, has completed ≤ total, success + failure = completed, and
percentage = round(completed/total×100) when total > 0 and 0 when
total = 0. -/
theorem progress_snapshot_invariants (c : Controller) (env : RunEnv) (md : CdnMetaData)
    (hrun : c.isRunning = false)
    (hmd : resolveMeta c env = Except.ok md)
    (hord : ∀ l : List CdnFileInfo, (env.settleOrder l).length = l.length) :
    ∀ p, Event.taskProgress p ∈ (executeLoad c env).events →
      p.total = (workingSet c md).length ∧
      p.completed ≤ p.total ∧
      p.success + p.failure = p.completed ∧
      p.percentage =
        (if 0 < p.total then jsRound (100 * p.completed) p.total else 0) := by
  intro p hp
  simp only [executeLoad, hrun, Bool.false_eq_true, if_false, updateState] at hp
  have hmd2 : resolveMeta
      { metaUrl := c.metaUrl, metaData := c.metaData, baseUrl := c.baseUrl,
        concurrency := c.concurrency, retryCount := c.retryCount,
        retryDelay := c.retryDelay, fileFilter := c.fileFilter,
        resumeConfig := c.resumeConfig, state := LoadState.running,
        isRunning := true, currentProgress := c.currentProgress } env =
      Except.ok md := hmd
  rw [hmd2] at hp
  dsimp only at hp
  cases hbase : resolveBase
      { metaUrl := c.metaUrl, metaData := c.metaData, baseUrl := c.baseUrl,
        concurrency := c.concurrency, retryCount := c.retryCount,
        retryDelay := c.retryDelay, fileFilter := c.fileFilter,
        resumeConfig := c.resumeConfig, state := LoadState.running,
        isRunning := true, currentProgress := c.currentProgress } env md with
  | error e =>
    rw [hbase] at hp
    simp at hp
  | ok b =>
    rw [hbase] at hp
    simp only [List.singleton_append, List.mem_cons] at hp
    rcases hp with hp | hp
    · exact absurd hp (by simp)
    · have h := loadPhase_progress_inv
        { metaUrl := c.metaUrl, metaData := c.metaData, baseUrl := c.baseUrl,
          concurrency := c.concurrency, retryCount := c.retryCount,
          retryDelay := c.retryDelay, fileFilter := c.fileFilter,
          resumeConfig := c.resumeConfig, state := LoadState.running,
          isRunning := true, currentProgress := c.currentProgress } env md hord p hp
      have hw : workingSet
          { metaUrl := c.metaUrl, metaData := c.metaData, baseUrl := c.baseUrl,
            concurrency := c.concurrency, retryCount := c.retryCount,
            retryDelay := c.retryDelay, fileFilter := c.fileFilter,
            resumeConfig := c.resumeConfig, state := LoadState.running,
            isRunning := true, currentProgress := c.currentProgress } md =
          workingSet c md := rfl
      rw [hw] at h
      exact h

/-- Witness for C5: the final snapshot of a concrete run over a two-file
manifest with one file pre-counted done. -/
theorem progress_snapshot_invariants_witness :
    Event.taskProgress (mkProgress 2 2 2 0) ∈
      (executeLoad ctrlRich envTrivial).events ∧
    ((mkProgress 2 2 2 0).total = (workingSet ctrlRich mdTwo).length ∧
     (mkProgress 2 2 2 0).completed ≤ (mkProgress 2 2 2 0).total ∧
     (mkProgress 2 2 2 0).success + (mkProgress 2 2 2 0).failure =
       (mkProgress 2 2 2 0).completed ∧
     (mkProgress 2 2 2 0).percentage =
       (if 0 < (mkProgress 2 2 2 0).total then
         jsRound (100 * (mkProgress 2 2 2 0).completed) (mkProgress 2 2 2 0).total
        else 0)) := by
  have hmem : Event.taskProgress (mkProgress 2 2 2 0) ∈
      (executeLoad ctrlRich envTrivial).events := by decide
  exact ⟨hmem, progress_snapshot_invariants ctrlRich envTrivial mdTwo rfl rfl
    (fun _ => rfl) (mkProgress 2 2 2 0) hmem⟩

/-! ## Theorems on the controller state machine -/

/-- `canResume` holds exactly when the state is `stopped` and some
checkpoint entry is `false`. -/
theorem canResume_iff (c : Controller) :
    canResume c = true ↔
      c.state = LoadState.stopped ∧ ∃ e ∈ c.resumeConfig, e.2 = false := by
  simp [canResume, List.any_eq_true, Bool.and_eq_true, beq_iff_eq]

/-- C3 counterexample: a stopped controller whose checkpoint holds one
pending entry (and no done entry) cannot resume — `resume()` is rejected
— while a stopped controller with one done entry and no pending entry
resumes without error. -/
theorem resume_guard_cex :
    (ctrlPendingOnly.state = LoadState.stopped ∧
      (∃ e ∈ ctrlPendingOnly.resumeConfig, e.2 = true) ∧
      (resume ctrlPendingOnly envTrivial).err =
        some (resumeErr LoadState.stopped)) ∧
    (ctrlDoneEntry.state = LoadState.stopped ∧
      (∀ e ∈ ctrlDoneEntry.resumeConfig, e.2 ≠ true) ∧
      (resume ctrlDoneEntry envTrivial).err = none) := by
  refine ⟨⟨rfl, ⟨("a", true), by decide, rfl⟩, by decide⟩,
    ⟨rfl, by decide, by decide⟩⟩

/-- C3 (amended): `resume()` succeeds only when the controller state is
Stopped and at least one checkpoint entry equals `false` (a file a
previous run completed); in every other case — including a stopped
controller whose entries are all pending — it is rejected with an
invalid-state error and mutates nothing. -/
theorem resume_guard (c : Controller) (env : RunEnv) :
    (¬ (c.state = LoadState.stopped ∧ ∃ e ∈ c.resumeConfig, e.2 = false) →
      resume c env =
        { ctrl := c, events := [], err := some (resumeErr c.state) }) ∧
    ((c.state = LoadState.stopped ∧ ∃ e ∈ c.resumeConfig, e.2 = false) →
      resume c env = executeLoad c env) := by
  constructor
  · intro h
    have hc : canResume c = false := by
      cases hcr : canResume c
      · rfl
      · exact absurd ((canResume_iff c).mp hcr) h
    unfold resume
    rw [hc]
    rfl
  · intro h
    have hc : canResume c = true := (canResume_iff c).mpr h
    unfold resume
    rw [hc]
    rfl

/-- Witness for C3: the amended guard evaluated on both sides at concrete
controllers. -/
theorem resume_guard_witness :
    resume ctrlPendingOnly envTrivial =
      { ctrl := ctrlPendingOnly, events := [],
        err := some (resumeErr ctrlPendingOnly.state) } ∧
    resume ctrlDoneEntry envTrivial = executeLoad ctrlDoneEntry envTrivial :=
  ⟨(resume_guard ctrlPendingOnly envTrivial).1
      (by
        intro hx
        exact absurd ((canResume_iff ctrlPendingOnly).mpr hx) (by decide)),
   (resume_guard ctrlDoneEntry envTrivial).2
      ⟨rfl, ("a", false), by decide, rfl⟩⟩

/-- C7: `start()` invoked while the controller is Running is rejected
with an invalid-state error and mutates nothing: the returned instance is
the untouched input — same state, checkpoint and progress. -/
theorem start_while_running_rejected (c : Controller) (env : RunEnv)
    (h : c.state = LoadState.running) :
    start c env =
      { ctrl := c, events := [], err := some (startErr LoadState.running) } := by
  have hc : canStart c = false := by
    unfold canStart
    rw [h]
    rfl
  unfold start
  rw [hc, h]
  rfl

/-- Witness for C7: a concrete running controller. -/
theorem start_while_running_rejected_witness :
    start ctrlRunning envTrivial =
      { ctrl := ctrlRunning, events := [],
        err := some (startErr LoadState.running) } :=
  start_while_running_rejected ctrlRunning envTrivial rfl

/-- A quiescent run is insensitive to the controller's state field: the
first thing `executeLoad` does is overwrite it with `running`. -/
theorem executeLoad_state_indep (c : Controller) (env : RunEnv) (s : LoadState)
    (h : c.isRunning = false) :
    executeLoad { c with state := s } env = executeLoad c env := by
  cases c
  simp_all [executeLoad, updateState]

/-- C9: `start()` is accepted from Stopped; it resets the state to Idle
and re-runs the per-run algorithm over the untouched checkpoint, which —
whenever `resume()` is allowed at all — is exactly the effect of
`resume()` from that checkpoint. -/
theorem start_stopped_like_resume (c : Controller) (env : RunEnv)
    (h : c.state = LoadState.stopped) (hr : c.isRunning = false) :
    canStart c = true ∧
    start c env = executeLoad { c with state := LoadState.idle } env ∧
    (canResume c = true → start c env = resume c env) := by
  have hcs : canStart c = true := by
    unfold canStart
    rw [h]
    rfl
  refine ⟨hcs, ?_, ?_⟩
  · unfold start
    rw [hcs, h]
    rfl
  · intro hcr
    unfold start resume
    rw [hcs, hcr, h]
    show executeLoad { c with state := LoadState.idle } env = executeLoad c env
    exact executeLoad_state_indep c env LoadState.idle hr

/-- Witness for C9: a concrete stopped controller from whose checkpoint
both `start()` and `resume()` run. -/
theorem start_stopped_like_resume_witness :
    canStart ctrlDoneEntry = true ∧
    start ctrlDoneEntry envTrivial =
      executeLoad { ctrlDoneEntry with state := LoadState.idle } envTrivial ∧
    start ctrlDoneEntry envTrivial = resume ctrlDoneEntry envTrivial := by
  obtain ⟨h1, h2, h3⟩ := start_stopped_like_resume ctrlDoneEntry envTrivial rfl rfl
  exact ⟨h1, h2, h3 (by decide)⟩

/-- C10: the constructor throws a configuration error when neither a
manifest URL nor a manifest value is supplied; otherwise the instance
starts Stopped exactly when the supplied checkpoint holds an entry equal
to `false` and Idle otherwise, and construction fires the state
notification exactly once, with no progress, isRunning = false,
completedCount the number of done entries and totalCount = 0. -/
theorem construct_spec (o : CdnLoadOptions) :
    (o.metaUrl = none → o.metaData = none →
      mkCdnResource o = Except.error ctorErrMsg) ∧
    (∀ c evs, mkCdnResource o = Except.ok (c, evs) →
      ((c.state = LoadState.stopped ↔
          ∃ e ∈ o.resumeConfig.getD [], e.2 = false) ∧
       (c.state = LoadState.idle ↔
          ¬ ∃ e ∈ o.resumeConfig.getD [], e.2 = false)) ∧
      evs = [Event.stateChange
        { state := c.state, progress := none, isRunning := false,
          completedCount :=
            ((o.resumeConfig.getD []).filter (fun e => e.2 == false)).length,
          totalCount := 0 }]) := by
  constructor
  · intro h1 h2
    unfold mkCdnResource
    rw [h1, h2]
    rfl
  · intro c evs h
    simp only [mkCdnResource] at h
    by_cases hcond : (!optStrTruthy o.metaUrl && o.metaData.isNone) = true
    · rw [if_pos hcond] at h
      cases h
    · rw [if_neg hcond] at h
      rw [Except.ok.injEq, Prod.mk.injEq] at h
      obtain ⟨hc, hevs⟩ := h
      subst hc
      subst hevs
      by_cases hany : ((o.resumeConfig.getD []).any (fun e => e.2 == false)) = true
      · have hex : ∃ e ∈ o.resumeConfig.getD [], e.2 = false := by
          simpa [List.any_eq_true, beq_iff_eq] using hany
        simp only [hany, if_true]
        refine ⟨⟨?_, ?_⟩, trivial⟩
        · simp [hex]
        · simp [hex]
      · have hex : ¬ ∃ e ∈ o.resumeConfig.getD [], e.2 = false := by
          simpa [List.any_eq_true, beq_iff_eq] using hany
        simp only [hany, if_false]
        refine ⟨⟨?_, ?_⟩, trivial⟩
        · simp [hex]
        · simp [hex]

/-- Witness for C10: missing manifest options throw; options with a
manifest value and a one-done-entry checkpoint construct a stopped
instance firing the single state notification. -/
theorem construct_spec_witness :
    mkCdnResource {} = Except.error ctorErrMsg ∧
    ((ctorC.state = LoadState.stopped ↔
        ∃ e ∈ oStopped.resumeConfig.getD [], e.2 = false) ∧
     (ctorC.state = LoadState.idle ↔
        ¬ ∃ e ∈ oStopped.resumeConfig.getD [], e.2 = false)) ∧
    ctorEvs = [Event.stateChange
      { state := ctorC.state, progress := none, isRunning := false,
        completedCount :=
          ((oStopped.resumeConfig.getD []).filter (fun e => e.2 == false)).length,
        totalCount := 0 }] :=
  ⟨(construct_spec {}).1 rfl rfl,
   (construct_spec oStopped).2 ctorC ctorEvs rfl⟩

end CdnLoader
